import Mathlib

/-!
Verification development for the ActivityTrack core: the local-hour bucketing
algorithm (`src/screen_time.py`), the foreground-time suspend-gap guard
(spec §4.3), the aggregating database upserts (`src/database.py`) and the
break-reminder monitor (`src/break_reminder.py`).

Timestamps are modelled as rationals (seconds since the epoch).  Local time
(`datetime.fromtimestamp`) is modelled as UTC shifted by a fixed offset of
`off` seconds, so the local hour containing a timestamp `t` is hour number
`⌊(t + off) / 3600⌋` of the local timeline.
-/

namespace ActivityTrack

/-- One `(date, hour, seconds)` bucket produced by the bucketing algorithm.
`date` is the local calendar day (days since the epoch in local time),
`hour` the local hour of day (0–23). -/
structure Segment where
  date : ℤ
  hour : ℤ
  seconds : ℚ
deriving DecidableEq, Repr

/-- Index of the local hour containing `t` (hours since the epoch, local). -/
def hourIndex (off : ℤ) (t : ℚ) : ℤ := ⌊(t + (off : ℚ)) / 3600⌋

/-- Wall-clock timestamp of the start of the local hour after the one
containing `t`: the `next_boundary` of `split_interval_by_local_hour`
(`hour_start + timedelta(hours=1)` converted back to a timestamp). -/
def nextBoundary (off : ℤ) (t : ℚ) : ℚ :=
  3600 * ((hourIndex off t : ℚ) + 1) - (off : ℚ)

/-- Local calendar day containing `t` (`dt.date()`). -/
def dateOf (off : ℤ) (t : ℚ) : ℤ := ⌊(t + (off : ℚ)) / 86400⌋

/-- Local hour of day of `t` (`dt.hour`), in `0 .. 23`. -/
def hourOf (off : ℤ) (t : ℚ) : ℤ := hourIndex off t % 24

/-- The safety guard of `split_interval_by_local_hour` (lines 43–44 of
`src/screen_time.py`): if the computed boundary `nb t` does not strictly
exceed the cursor, force-advance by exactly one hour.  Stated over an
arbitrary boundary function `nb` so that it also covers pathological
local-time discontinuities. -/
def guardAdvance (nb : ℚ → ℚ) (t : ℚ) : ℚ :=
  if nb t ≤ t then t + 3600 else nb t

/-- `slice_end = min(end_ts, next_boundary)` after the guard. -/
def sliceEnd (off : ℤ) (endTs t : ℚ) : ℚ :=
  min endTs (guardAdvance (nextBoundary off) t)

/-- The `while cursor < end_ts` loop of `split_interval_by_local_hour`. -/
def splitGo (off : ℤ) (endTs cursor : ℚ) : List Segment :=
  if h : cursor < endTs then
    (if 0 < sliceEnd off endTs cursor - cursor then
      [⟨dateOf off cursor, hourOf off cursor, sliceEnd off endTs cursor - cursor⟩]
     else []) ++ splitGo off endTs (sliceEnd off endTs cursor)
  else []
termination_by (2 * (hourIndex off endTs - hourIndex off cursor).toNat
    + (if cursor < endTs then 1 else 0) : ℕ)
decreasing_by
  have hnb1 : cursor < nextBoundary off cursor := by
    have hfl := Int.lt_floor_add_one ((cursor + (off : ℚ)) / 3600)
    unfold nextBoundary hourIndex
    linarith
  have hga : guardAdvance (nextBoundary off) cursor = nextBoundary off cursor := by
    unfold guardAdvance
    rw [if_neg (not_le.2 hnb1)]
  have hlt : cursor < sliceEnd off endTs cursor := by
    unfold sliceEnd
    rw [hga]
    exact lt_min h hnb1
  have hmono : ∀ t u : ℚ, t ≤ u → hourIndex off t ≤ hourIndex off u := by
    intro t u htu
    unfold hourIndex
    exact Int.floor_le_floor ((div_le_div_iff_of_pos_right (by norm_num : (0:ℚ) < 3600)).2 (by linarith))
  have hidx : hourIndex off (nextBoundary off cursor) = hourIndex off cursor + 1 := by
    unfold hourIndex nextBoundary
    have h3 : (3600 * ((⌊(cursor + (off : ℚ)) / 3600⌋ : ℚ) + 1) - (off : ℚ) + (off : ℚ)) / 3600
        = ((⌊(cursor + (off : ℚ)) / 3600⌋ + 1 : ℤ) : ℚ) := by
      push_cast
      field_simp
    unfold hourIndex
    rw [h3, Int.floor_intCast]
  by_cases hse : sliceEnd off endTs cursor < endTs
  · have hnbe : sliceEnd off endTs cursor = nextBoundary off cursor := by
      unfold sliceEnd at hse ⊢
      rw [hga] at hse ⊢
      rcases le_total endTs (nextBoundary off cursor) with hc | hc
      · rw [min_eq_left hc] at hse
        exact absurd hse (lt_irrefl _)
      · rw [min_eq_right hc]
    have h2 : hourIndex off cursor < hourIndex off endTs := by
      have hle : nextBoundary off cursor ≤ endTs := by
        rw [← hnbe]; exact le_of_lt hse
      have := hmono _ _ hle
      rw [hidx] at this
      omega
    rw [if_pos h, if_pos hse, hnbe, hidx]
    omega
  · have h3 := hmono _ _ (le_of_lt hlt)
    rw [if_pos h, if_neg hse]
    omega

/-- Shallow embedding of `split_interval_by_local_hour` from
`src/screen_time.py`: split `[start_ts, end_ts]` into local-hour buckets;
empty for `end_ts ≤ start_ts`. -/
def split_interval_by_local_hour (off : ℤ) (start_ts end_ts : ℚ) : List Segment :=
  if end_ts ≤ start_ts then [] else splitGo off end_ts start_ts

/-- Total seconds of a list of segments. -/
def sumSeconds (l : List Segment) : ℚ := (l.map Segment.seconds).sum

/-- Specification-side tiling predicate: `Tiles off c l e` says the segment
list `l` tiles the interval `[c, e]` with contiguous, non-overlapping pieces,
each labelled with the date and hour of its start, each lying wholly within
one local clock hour (every instant of the piece has the same local date and
hour as its start, and the piece ends no later than the next hour boundary). -/
inductive Tiles (off : ℤ) : ℚ → List Segment → ℚ → Prop where
  | nil (e : ℚ) : Tiles off e [] e
  | cons (c c' : ℚ) (rest : List Segment) (e : ℚ)
      (hlt : c < c')
      (hnb : c' ≤ nextBoundary off c)
      (hsame : ∀ t : ℚ, c ≤ t → t < c' →
        dateOf off t = dateOf off c ∧ hourOf off t = hourOf off c)
      (htail : Tiles off c' rest e) :
      Tiles off c (⟨dateOf off c, hourOf off c, c' - c⟩ :: rest) e

/-! ## Foreground-time accumulation (suspend-gap guard) -/

/-- In-memory foreground-time state of the tracker: the last observed wall
time and the `ForegroundTimeBuffer`, a list of `(app, segment)` entries. -/
structure TrackerFg where
  last_wall_time_observed : ℚ
  foreground_time_buffer : List (String × Segment)
deriving DecidableEq

/-- Modelled from the spec: `ActivityTrack._record_foreground_time`
(the tracker module `src/tracker.py` is not among the source files; only its
tests and callers are).  Spec §4.3: on each tick the interval
`[last_observed_wall_time, now]` for the current foreground `app` is bucketed
by the Bucketing Algorithm into the `ForegroundTimeBuffer` — unless
`now − last_observed_wall_time` exceeds the configured suspend-gap
`threshold`, in which case "the interval is discarded entirely (treated as
system sleep/hibernate, not usage) rather than bucketed". -/
def record_foreground_time (off : ℤ) (threshold : ℚ) (app : String)
    (tr : TrackerFg) (now : ℚ) : TrackerFg :=
  if threshold < now - tr.last_wall_time_observed then
    { tr with last_wall_time_observed := now }
  else
    { last_wall_time_observed := now
      foreground_time_buffer := tr.foreground_time_buffer ++
        (split_interval_by_local_hour off tr.last_wall_time_observed now).map
          (fun s => (app, s)) }

/-- Total seconds accumulated in the foreground-time buffer. -/
def buffer_total_seconds (tr : TrackerFg) : ℚ :=
  (tr.foreground_time_buffer.map (fun p => p.2.seconds)).sum

/-! ## Persistence layer (`src/database.py`) -/

/-- One row of the `daily_stats` table. -/
structure DailyRow where
  key_count : ℤ
  mouse_click_count : ℤ
  mouse_distance : ℚ
  scroll_distance : ℚ
deriving DecidableEq

/-- The three tables of the database, as partial maps from their primary
keys (`date`; `date, app_name`; `date, key_code`) to stored rows. -/
structure Database where
  daily_stats : ℤ → Option DailyRow
  app_stats : ℤ → String → Option ℤ
  heatmap_data : ℤ → ℤ → Option ℤ

/-- `Database.update_stats`: `INSERT .. ON CONFLICT(date) DO UPDATE SET`
with additive merge on every column. -/
def update_stats (db : Database) (date : ℤ) (key_count click_count : ℤ)
    (distance scroll : ℚ) : Database :=
  { db with daily_stats := fun d =>
      if d = date then
        match db.daily_stats date with
        | none => some ⟨key_count, click_count, distance, scroll⟩
        | some r => some ⟨r.key_count + key_count, r.mouse_click_count + click_count,
                          r.mouse_distance + distance, r.scroll_distance + scroll⟩
      else db.daily_stats d }

/-- `Database.update_app_stats`: `ON CONFLICT(date, app_name)` additive. -/
def update_app_stats (db : Database) (date : ℤ) (app : String)
    (key_count : ℤ) : Database :=
  { db with app_stats := fun d a =>
      if d = date ∧ a = app then
        match db.app_stats date app with
        | none => some key_count
        | some k => some (k + key_count)
      else db.app_stats d a }

/-- `Database.update_heatmap`: `ON CONFLICT(date, key_code)` additive. -/
def update_heatmap (db : Database) (date key_code cnt : ℤ) : Database :=
  { db with heatmap_data := fun d k =>
      if d = date ∧ k = key_code then
        match db.heatmap_data date key_code with
        | none => some cnt
        | some c => some (c + cnt)
      else db.heatmap_data d k }

/-- Stored `daily_stats` row for a date, zero row if absent. -/
def dailyOrZero (db : Database) (date : ℤ) : DailyRow :=
  (db.daily_stats date).getD ⟨0, 0, 0, 0⟩

/-- Stored per-app key count, zero if absent. -/
def appOrZero (db : Database) (date : ℤ) (app : String) : ℤ :=
  (db.app_stats date app).getD 0

/-- Stored heatmap count, zero if absent. -/
def heatOrZero (db : Database) (date key_code : ℤ) : ℤ :=
  (db.heatmap_data date key_code).getD 0

/-! ## Break reminder (`src/break_reminder.py`) -/

/-- `ActivityStats` of `src/break_reminder.py`. -/
structure ActivityStats where
  total_keys : ℕ
  total_clicks : ℕ
  total_scrolls : ℕ
  total_distance : ℚ
deriving DecidableEq

/-- `ActivityStats.reset()` / a freshly constructed snapshot. -/
def ActivityStats.reset : ActivityStats := ⟨0, 0, 0, 0⟩

/-- The configuration fields the break reminder reads. -/
structure BRConfig where
  break_reminder_enabled : Bool
  break_reminder_interval_minutes : ℚ
  break_reminder_duration_minutes : ℚ
deriving DecidableEq

/-- The mutable state of a `BreakReminder` instance. -/
structure BRState where
  continuous_usage_start : Option ℚ
  last_reminder_time : Option ℚ
  on_break : Bool
  break_start_time : Option ℚ
  last_activity_snapshot : ActivityStats
deriving DecidableEq

/-- The state established by `BreakReminder.__init__`. -/
def initState : BRState := ⟨none, none, false, none, ActivityStats.reset⟩

/-- Python truthiness of an `Optional[float]`: `if x:` is true exactly when
`x` is neither `None` nor `0.0`. -/
def pyTruthy : Option ℚ → Bool
  | none => false
  | some v => if v = 0 then false else true

/-- `BreakReminder.reset_timer`: restart the continuous-usage timer and
clear all break/reminder bookkeeping. -/
def reset_timer (_st : BRState) (now : ℚ) : BRState :=
  { continuous_usage_start := some now
    last_reminder_time := none
    on_break := false
    break_start_time := none
    last_activity_snapshot := ActivityStats.reset }

/-- `BreakReminder.snooze(minutes)`: record `now` as the last reminder time
and, when the continuous-usage start is truthy, re-base it to
`now − (interval·60 − minutes·60)`. -/
def snooze (cfg : BRConfig) (st : BRState) (now minutes : ℚ) : BRState :=
  let newStart := now - (cfg.break_reminder_interval_minutes * 60 - minutes * 60)
  let st1 := { st with last_reminder_time := some now }
  if pyTruthy st.continuous_usage_start then
    { st1 with continuous_usage_start := some newStart }
  else st1

/-- `BreakReminder._is_enabled`. -/
def is_enabled (cfg : BRConfig) : Bool :=
  cfg.break_reminder_enabled && decide (0 < cfg.break_reminder_interval_minutes)

/-- The stats snapshot `_is_genuine_activity` reads from the tracker. -/
structure StatsSnapshot where
  buffer_keys : ℕ
  buffer_clicks : ℕ
  buffer_distance : ℚ
  buffer_scroll : ℚ
deriving DecidableEq

/-- `BreakReminder._is_genuine_activity`, reading the snapshot and the
number of entries of the foreground-time snapshot; rules in source order,
first match wins. -/
def is_genuine_activity (snap : StatsSnapshot) (foreground_apps : ℕ) : Bool :=
  if 0 < snap.buffer_keys then true
  else if (1 / 1000 : ℚ) < snap.buffer_distance then true
  else if 0 < snap.buffer_scroll then true
  else if 1 < foreground_apps then true
  else decide (snap.buffer_clicks < 100)

/-- `BreakReminder._should_remind`, with the tick's wall time `now`, idle
flag and activity inputs passed explicitly. -/
def should_remind (cfg : BRConfig) (st : BRState) (now : ℚ) (idle : Bool)
    (snap : StatsSnapshot) (foreground_apps : ℕ) : Bool :=
  if !is_enabled cfg then false
  else
    match st.continuous_usage_start with
    | none => false
    | some cus =>
      if idle then false
      else if !is_genuine_activity snap foreground_apps then false
      else if cfg.break_reminder_interval_minutes * 60 ≤ now - cus then
        match st.last_reminder_time with
        | none => true
        | some lrt =>
          if lrt = 0 then true
          else if now - lrt < 300 then false else true
      else false

/-- Statement of claim C5 read off the specification: the conditions under
which `_should_remind` is said to return `True`.  To be compared with the
source-derived `should_remind`. -/
def shouldRemindSpec (cfg : BRConfig) (st : BRState) (now : ℚ) (idle : Bool)
    (snap : StatsSnapshot) (foreground_apps : ℕ) : Prop :=
  cfg.break_reminder_enabled = true ∧
  0 < cfg.break_reminder_interval_minutes ∧
  (∃ cus, st.continuous_usage_start = some cus ∧
    cfg.break_reminder_interval_minutes * 60 ≤ now - cus) ∧
  idle = false ∧
  is_genuine_activity snap foreground_apps = true ∧
  (st.last_reminder_time = none ∨
    ∃ lrt, st.last_reminder_time = some lrt ∧ 300 ≤ now - lrt)

/-- `BreakReminder._check_break_taken`: returns the boolean result together
with the state after the method's own field updates. -/
def check_break_taken (cfg : BRConfig) (st : BRState) (idle : Bool) (now : ℚ) :
    Bool × BRState :=
  if !idle then
    if st.on_break then
      (false, { st with on_break := false, break_start_time := none })
    else (false, st)
  else if !st.on_break then
    (false, { st with on_break := true, break_start_time := some now })
  else
    match st.break_start_time with
    | some bst =>
      if bst = 0 then (false, st)
      else (decide (cfg.break_reminder_duration_minutes * 60 ≤ now - bst), st)
    | none => (false, st)

/-- `BreakReminder._send_reminder` (with a notification callback set):
fires the callback and records the reminder time. -/
def send_reminder (st : BRState) (now : ℚ) : BRState :=
  { st with last_reminder_time := some now }

/-- One exception-free iteration of `BreakReminder._monitor_loop`: check for
a taken break (resetting the timer on success and skipping the rest of the
tick, as the `continue` does), otherwise possibly send a reminder.  Returns
the new state and whether a reminder fired. -/
def monitor_tick (cfg : BRConfig) (st : BRState) (idle : Bool) (now : ℚ)
    (snap : StatsSnapshot) (foreground_apps : ℕ) : BRState × Bool :=
  let p := check_break_taken cfg st idle now
  if p.1 then (reset_timer p.2 now, false)
  else if should_remind cfg p.2 now idle snap foreground_apps then
    (send_reminder p.2 now, true)
  else (p.2, false)

/-- Python `int()` on a rational: truncation toward zero. -/
def pyInt (q : ℚ) : ℤ := if 0 ≤ q then ⌊q⌋ else ⌈q⌉

/-- The status projection returned by `BreakReminder.get_status`. -/
structure BRStatus where
  enabled : Bool
  continuous_minutes : ℤ
  until_reminder_minutes : ℤ
  br_on_break : Bool
deriving DecidableEq

/-- `BreakReminder.get_status`, returning the projection together with the
(unmodified) state: the method only reads. -/
def get_status (cfg : BRConfig) (st : BRState) (now : ℚ) : BRStatus × BRState :=
  if !is_enabled cfg then (⟨false, 0, 0, false⟩, st)
  else
    if pyTruthy st.continuous_usage_start then
      let elapsed := now - (st.continuous_usage_start.getD 0)
      (⟨true, pyInt (elapsed / 60),
        max 0 (pyInt ((cfg.break_reminder_interval_minutes * 60 - elapsed) / 60)),
        st.on_break⟩, st)
    else (⟨true, 0, 0, st.on_break⟩, st)

/-- Remaining seconds until a reminder becomes due (specification notion
used by claim C6): interval minus elapsed continuous usage. -/
def time_until_reminder (cfg : BRConfig) (st : BRState) (now : ℚ) : ℚ :=
  cfg.break_reminder_interval_minutes * 60 -
    (now - st.continuous_usage_start.getD 0)

/-- Invariant of claim C10: `_on_break` and `_break_start_time` are set and
cleared together. -/
def br_invariant (st : BRState) : Prop :=
  st.on_break = true ↔ st.break_start_time ≠ none

instance (st : BRState) : Decidable (br_invariant st) := by
  unfold br_invariant
  infer_instance

/-! ## Exception handling of the monitor loop (`_monitor_loop`) -/

/-- The four fallible calls made inside one `_monitor_loop` tick, each as an
oracle that either returns a value or raises (an `Except.error`). -/
structure TickOracles where
  check : Except String (Bool × BRState)
  res : Except String BRState
  remind : Except String Bool
  send : Except String BRState

/-- The body of one monitor tick, before the `try/except`: propagates any
exception of its four calls. -/
def tick_body (o : TickOracles) : Except String BRState :=
  match o.check with
  | .error e => .error e
  | .ok (taken, st1) =>
    if taken then o.res
    else
      match o.remind with
      | .error e => .error e
      | .ok r => if r then o.send else .ok st1

/-- The `try/except` of `_monitor_loop` around one tick: an exception is
caught, the message logged, and the loop keeps its current state. -/
def guarded_tick (st : BRState) (o : TickOracles) : BRState × Option String :=
  match tick_body o with
  | .ok st' => (st', none)
  | .error e => (st, some e)

/-- The monitor loop over a schedule of ticks, collecting the log. -/
def monitor_run (st : BRState) : List TickOracles → BRState × List String
  | [] => (st, [])
  | o :: rest =>
    let g := guarded_tick st o
    let r := monitor_run g.1 rest
    (r.1, g.2.toList ++ r.2)

/-- The error a tick's body would raise, if any. -/
def tick_error (o : TickOracles) : Option String :=
  match tick_body o with
  | .ok _ => none
  | .error e => some e

/-- Infallible oracles realizing one tick from the actual break-reminder
operations. -/
def oraclesOf (cfg : BRConfig) (st : BRState) (idle : Bool) (now : ℚ)
    (snap : StatsSnapshot) (foreground_apps : ℕ) : TickOracles :=
  let p := check_break_taken cfg st idle now
  { check := .ok p
    res := .ok (reset_timer p.2 now)
    remind := .ok (should_remind cfg p.2 now idle snap foreground_apps)
    send := .ok (send_reminder p.2 now) }

/-! ## Concrete instances used by the counterexamples -/

/-- Config: reminders enabled, 1-minute interval, 5-minute break. -/
def cexCfg : BRConfig := ⟨true, 1, 5⟩

/-- Snapshot with one key press (classified genuine). -/
def cexSnap : StatsSnapshot := ⟨1, 0, 0, 0⟩

/-- State whose last reminder time is the timestamp `0.0`: recorded, but
falsy for Python's `if self._last_reminder_time:`. -/
def cexState : BRState := ⟨some 0, some 0, false, none, ActivityStats.reset⟩

/-- Config for the snooze counterexample: 60-minute interval. -/
def snzCfg : BRConfig := ⟨true, 60, 5⟩

/-- State two hours into continuous usage (start at 1). -/
def snzState : BRState := ⟨some 1, none, false, none, ActivityStats.reset⟩

/-- State on a break that started at wall time 1. -/
def cbtState : BRState := ⟨some 0, none, true, some 1, ActivityStats.reset⟩

/-! ## Arithmetic facts about the hour grid -/

theorem lt_nextBoundary (off : ℤ) (t : ℚ) : t < nextBoundary off t := by
  have hfl := Int.lt_floor_add_one ((t + (off : ℚ)) / 3600)
  unfold nextBoundary hourIndex
  linarith

theorem nextBoundary_le (off : ℤ) (t : ℚ) : nextBoundary off t ≤ t + 3600 := by
  have hfl := Int.floor_le ((t + (off : ℚ)) / 3600)
  unfold nextBoundary hourIndex
  linarith

theorem guardAdvance_nb (off : ℤ) (t : ℚ) :
    guardAdvance (nextBoundary off) t = nextBoundary off t := by
  unfold guardAdvance
  rw [if_neg (not_le.2 (lt_nextBoundary off t))]

theorem lt_sliceEnd (off : ℤ) {endTs t : ℚ} (h : t < endTs) :
    t < sliceEnd off endTs t := by
  unfold sliceEnd
  rw [guardAdvance_nb]
  exact lt_min h (lt_nextBoundary off t)

theorem sliceEnd_le_nextBoundary (off : ℤ) (endTs t : ℚ) :
    sliceEnd off endTs t ≤ nextBoundary off t := by
  unfold sliceEnd
  rw [guardAdvance_nb]
  exact min_le_right _ _

theorem hourIndex_mono (off : ℤ) {t u : ℚ} (h : t ≤ u) :
    hourIndex off t ≤ hourIndex off u := by
  unfold hourIndex
  exact Int.floor_le_floor
    ((div_le_div_iff_of_pos_right (by norm_num : (0:ℚ) < 3600)).2 (by linarith))

theorem hourIndex_const (off : ℤ) {t u : ℚ} (h1 : t ≤ u)
    (h2 : u < nextBoundary off t) : hourIndex off u = hourIndex off t := by
  have hle := hourIndex_mono off h1
  have hlt : hourIndex off u < hourIndex off t + 1 := by
    unfold hourIndex
    rw [Int.floor_lt]
    unfold nextBoundary hourIndex at h2
    push_cast
    rw [div_lt_iff₀ (by norm_num : (0:ℚ) < 3600)]
    linarith
  omega

theorem floor_day_of_floor_hour {v : ℚ} {m : ℤ}
    (hm : ⌊v / 3600⌋ = m) : ⌊v / 86400⌋ = ⌊(m : ℚ) / 24⌋ := by
  have h1 : (m : ℚ) ≤ v / 3600 := by
    rw [← hm]; exact Int.floor_le _
  have h2 : v / 3600 < m + 1 := by
    rw [← hm]; exact Int.lt_floor_add_one _
  have h1' : (m : ℚ) * 3600 ≤ v := (le_div_iff₀ (by norm_num : (0:ℚ) < 3600)).1 h1
  have h2' : v < ((m : ℚ) + 1) * 3600 := (div_lt_iff₀ (by norm_num : (0:ℚ) < 3600)).1 h2
  have hk1 : (⌊(m : ℚ) / 24⌋ : ℚ) ≤ (m : ℚ) / 24 := Int.floor_le _
  have hk2 : (m : ℚ) / 24 < ⌊(m : ℚ) / 24⌋ + 1 := Int.lt_floor_add_one _
  have hk1' : (⌊(m : ℚ) / 24⌋ : ℚ) * 24 ≤ (m : ℚ) :=
    (le_div_iff₀ (by norm_num : (0:ℚ) < 24)).1 hk1
  have hk2' : (m : ℚ) < ((⌊(m : ℚ) / 24⌋ : ℚ) + 1) * 24 :=
    (div_lt_iff₀ (by norm_num : (0:ℚ) < 24)).1 hk2
  have hm24 : m ≤ 24 * ⌊(m : ℚ) / 24⌋ + 23 := by
    have : (m : ℚ) < 24 * (⌊(m : ℚ) / 24⌋ + 1) := by linarith
    have hz : m < 24 * (⌊(m : ℚ) / 24⌋ + 1) := by exact_mod_cast this
    omega
  have hm24' : (m : ℚ) ≤ 24 * (⌊(m : ℚ) / 24⌋ : ℚ) + 23 := by exact_mod_cast hm24
  rw [Int.floor_eq_iff]
  constructor
  · rw [le_div_iff₀ (by norm_num : (0:ℚ) < 86400)]
    nlinarith
  · rw [div_lt_iff₀ (by norm_num : (0:ℚ) < 86400)]
    nlinarith

theorem dateOf_eq_of_hourIndex_eq (off : ℤ) {t u : ℚ}
    (h : hourIndex off t = hourIndex off u) : dateOf off t = dateOf off u := by
  unfold hourIndex at h
  unfold dateOf
  rw [@floor_day_of_floor_hour (t + (off : ℚ)) _ rfl,
      @floor_day_of_floor_hour (u + (off : ℚ)) _ rfl, h]

theorem hourOf_eq_of_hourIndex_eq (off : ℤ) {t u : ℚ}
    (h : hourIndex off t = hourIndex off u) : hourOf off t = hourOf off u := by
  unfold hourOf
  rw [h]

/-! ## The bucketing loop tiles its interval -/

theorem splitGo_tiles (off : ℤ) (endTs cursor : ℚ) (hle : cursor ≤ endTs) :
    Tiles off cursor (splitGo off endTs cursor) endTs := by
  refine splitGo.induct off endTs
      (fun c => c ≤ endTs → Tiles off c (splitGo off endTs c) endTs) ?_ ?_ cursor hle
  · intro c h ih _
    rw [splitGo, dif_pos h]
    have hlt : c < sliceEnd off endTs c := lt_sliceEnd off h
    have hpos : 0 < sliceEnd off endTs c - c := by linarith
    rw [if_pos hpos, List.singleton_append]
    have hnb : sliceEnd off endTs c ≤ nextBoundary off c :=
      sliceEnd_le_nextBoundary off endTs c
    refine Tiles.cons c (sliceEnd off endTs c) _ endTs hlt hnb ?_ ?_
    · intro s hs1 hs2
      have hci : hourIndex off s = hourIndex off c :=
        hourIndex_const off hs1 (lt_of_lt_of_le hs2 hnb)
      exact ⟨dateOf_eq_of_hourIndex_eq off hci, hourOf_eq_of_hourIndex_eq off hci⟩
    · exact ih (min_le_left _ _)
  · intro c h hle2
    rw [splitGo, dif_neg h]
    have hce : c = endTs := le_antisymm hle2 (not_lt.1 h)
    rw [hce]
    exact Tiles.nil endTs

theorem tiles_sum {off : ℤ} {c : ℚ} {l : List Segment} {e : ℚ}
    (h : Tiles off c l e) : sumSeconds l = e - c := by
  induction h with
  | nil e => simp [sumSeconds]
  | cons c c' rest e hlt hnb hsame htail ih =>
    simp only [sumSeconds, List.map_cons, List.sum_cons] at ih ⊢
    linarith

theorem tiles_bounds {off : ℤ} {c : ℚ} {l : List Segment} {e : ℚ}
    (h : Tiles off c l e) :
    ∀ seg ∈ l, 0 < seg.seconds ∧ seg.seconds ≤ 3600 ∧
      0 ≤ seg.hour ∧ seg.hour < 24 := by
  induction h with
  | nil e => intro seg hs; simp at hs
  | cons c c' rest e hlt hnb hsame htail ih =>
    intro seg hs
    rcases List.mem_cons.1 hs with hs | hs
    · subst hs
      have hb := nextBoundary_le off c
      refine ⟨by simpa using hlt, by simp only; linarith, ?_, ?_⟩
      · exact Int.emod_nonneg _ (by norm_num)
      · exact Int.emod_lt_of_pos _ (by norm_num)
    · exact ih seg hs

theorem tiles_split (off : ℤ) {s e : ℚ} (h : s ≤ e) :
    Tiles off s (split_interval_by_local_hour off s e) e := by
  rcases eq_or_lt_of_le h with heq | hlt
  · subst heq
    unfold split_interval_by_local_hour
    rw [if_pos (le_refl s)]
    exact Tiles.nil s
  · unfold split_interval_by_local_hour
    rw [if_neg (not_le.2 hlt)]
    exact splitGo_tiles off e s (le_of_lt hlt)

theorem sum_split (off : ℤ) {s e : ℚ} (h : s ≤ e) :
    sumSeconds (split_interval_by_local_hour off s e) = e - s :=
  tiles_sum (tiles_split off h)

/-! ## Claim theorems: bucketing -/

/-- C1: for every pair of wall-clock timestamps with `e ≥ s`,
`split_interval_by_local_hour` returns an ordered sequence of
(date, hour 0–23, seconds) segments that tile `[s, e]` contiguously and
without overlap, each lying wholly within one local clock hour, whose
seconds sum to `e − s` (here exactly, hence within any tolerance), with
every segment's seconds positive and at most 3600. -/
theorem split_interval_by_local_hour_correct (off : ℤ) (s e : ℚ) (h : s ≤ e) :
    Tiles off s (split_interval_by_local_hour off s e) e ∧
    sumSeconds (split_interval_by_local_hour off s e) = e - s ∧
    ∀ seg ∈ split_interval_by_local_hour off s e,
      0 < seg.seconds ∧ seg.seconds ≤ 3600 ∧ 0 ≤ seg.hour ∧ seg.hour < 24 :=
  ⟨tiles_split off h, sum_split off h, tiles_bounds (tiles_split off h)⟩

theorem split_interval_by_local_hour_correct_witness :
    ((0 : ℚ) ≤ 5400) ∧
    (Tiles 0 0 (split_interval_by_local_hour 0 0 5400) 5400 ∧
     sumSeconds (split_interval_by_local_hour 0 0 5400) = 5400 - 0 ∧
     ∀ seg ∈ split_interval_by_local_hour 0 0 5400,
       0 < seg.seconds ∧ seg.seconds ≤ 3600 ∧ 0 ≤ seg.hour ∧ seg.hour < 24) :=
  ⟨by norm_num, split_interval_by_local_hour_correct 0 0 5400 (by norm_num)⟩

/-- C9: each iteration of the bucketing loop strictly advances the cursor:
for an arbitrary boundary function `nb` (covering local-time
discontinuities), the guarded boundary strictly exceeds the cursor, so the
next cursor `min endTs (guardAdvance nb cursor)` strictly exceeds the
cursor; and whenever the computed boundary does not strictly exceed the
cursor, the guard force-advances by exactly 3600 seconds (one hour),
bounding the step.  In the fixed-offset model the same holds for the
actual loop step `sliceEnd`, which also never exceeds one hour. -/
theorem split_loop_progress (nb : ℚ → ℚ) (cursor endTs : ℚ)
    (h : cursor < endTs) :
    cursor < min endTs (guardAdvance nb cursor) ∧
    (nb cursor ≤ cursor → guardAdvance nb cursor = cursor + 3600) ∧
    (cursor < nb cursor → guardAdvance nb cursor = nb cursor) ∧
    (nb cursor ≤ cursor → min endTs (guardAdvance nb cursor) - cursor ≤ 3600) ∧
    ∀ off : ℤ, cursor < sliceEnd off endTs cursor ∧
      sliceEnd off endTs cursor - cursor ≤ 3600 := by
  have hguard : cursor < guardAdvance nb cursor := by
    unfold guardAdvance
    split_ifs with hg
    · linarith
    · exact not_le.1 hg
  refine ⟨lt_min h hguard, ?_, ?_, ?_, ?_⟩
  · intro hg
    unfold guardAdvance
    rw [if_pos hg]
  · intro hg
    unfold guardAdvance
    rw [if_neg (not_le.2 hg)]
  · intro hg
    have : guardAdvance nb cursor = cursor + 3600 := by
      unfold guardAdvance; rw [if_pos hg]
    have hmin : min endTs (guardAdvance nb cursor) ≤ guardAdvance nb cursor :=
      min_le_right _ _
    linarith
  · intro off
    refine ⟨lt_sliceEnd off h, ?_⟩
    have h1 := sliceEnd_le_nextBoundary off endTs cursor
    have h2 := nextBoundary_le off cursor
    linarith

theorem split_loop_progress_witness :
    ((0 : ℚ) < 10) ∧
    ((0 : ℚ) < min 10 (guardAdvance (fun _ => 0) 0) ∧
     ((fun _ => (0:ℚ)) 0 ≤ 0 → guardAdvance (fun _ => 0) 0 = 0 + 3600) ∧
     ((0:ℚ) < (fun _ => (0:ℚ)) 0 → guardAdvance (fun _ => 0) 0 = (fun _ => (0:ℚ)) 0) ∧
     ((fun _ => (0:ℚ)) 0 ≤ 0 → min 10 (guardAdvance (fun _ => 0) 0) - 0 ≤ 3600) ∧
     ∀ off : ℤ, (0:ℚ) < sliceEnd off 10 0 ∧ sliceEnd off 10 0 - 0 ≤ 3600) :=
  ⟨by norm_num, split_loop_progress (fun _ => 0) 0 10 (by norm_num)⟩

/-- C2: one foreground-accumulation tick adds zero seconds to the
foreground-time buffer when the wall-clock gap exceeds the suspend-gap
threshold (the interval is discarded), and otherwise adds exactly the
elapsed seconds. -/
theorem suspend_gap_guard (off : ℤ) (threshold : ℚ) (app : String)
    (tr : TrackerFg) (now : ℚ) (h : tr.last_wall_time_observed ≤ now) :
    buffer_total_seconds (record_foreground_time off threshold app tr now) =
      buffer_total_seconds tr +
        (if threshold < now - tr.last_wall_time_observed then 0
         else now - tr.last_wall_time_observed) := by
  unfold record_foreground_time buffer_total_seconds
  split_ifs with hgap
  · simp
  · simp only [List.map_append, List.sum_append, List.map_map]
    have hcomp : ((fun p : String × Segment => p.2.seconds) ∘ fun s => (app, s))
        = Segment.seconds := rfl
    rw [hcomp]
    have := sum_split off h
    unfold sumSeconds at this
    rw [this]

theorem suspend_gap_guard_witness :
    (TrackerFg.mk 0 []).last_wall_time_observed ≤ (4 : ℚ) ∧
    buffer_total_seconds (record_foreground_time 0 120 "dummy" ⟨0, []⟩ 4) =
      buffer_total_seconds ⟨0, []⟩ +
        (if (120 : ℚ) < 4 - (TrackerFg.mk 0 []).last_wall_time_observed then 0
         else 4 - (TrackerFg.mk 0 []).last_wall_time_observed) :=
  ⟨by norm_num, suspend_gap_guard 0 120 "dummy" ⟨0, []⟩ 4 (by norm_num)⟩

/-! ## Claim theorems: persistence -/

/-- C3: the three persistence writes are aggregating upserts with
additive-merge semantics: two successive calls for the same key add both
deltas onto whatever was stored before, never overwriting. -/
theorem database_updates_additive :
    (∀ (db : Database) (date ka ca kb cb : ℤ) (da sa dq sq : ℚ),
      (update_stats (update_stats db date ka ca da sa) date kb cb dq sq).daily_stats date
        = some ⟨(dailyOrZero db date).key_count + ka + kb,
                (dailyOrZero db date).mouse_click_count + ca + cb,
                (dailyOrZero db date).mouse_distance + da + dq,
                (dailyOrZero db date).scroll_distance + sa + sq⟩) ∧
    (∀ (db : Database) (date : ℤ) (app : String) (a b : ℤ),
      (update_app_stats (update_app_stats db date app a) date app b).app_stats date app
        = some (appOrZero db date app + a + b)) ∧
    (∀ (db : Database) (date kc a b : ℤ),
      (update_heatmap (update_heatmap db date kc a) date kc b).heatmap_data date kc
        = some (heatOrZero db date kc + a + b)) := by
  refine ⟨?_, ?_, ?_⟩
  · intro db date ka ca kb cb da sa dq sq
    cases h : db.daily_stats date <;> simp [update_stats, dailyOrZero, h]
  · intro db date app a b
    cases h : db.app_stats date app <;> simp [update_app_stats, appOrZero, h]
  · intro db date kc a b
    cases h : db.heatmap_data date kc <;> simp [update_heatmap, heatOrZero, h]

/-! ## Claim theorems: genuine-activity classifier -/

/-- C4: `_is_genuine_activity` returns genuine exactly when some key was
pressed, or the mouse moved more than the 0.001 noise threshold, or there
was scrolling, or more than one foreground app was seen, or the click count
is below the suspicious threshold 100; in particular a snapshot with zero
keys/movement/scroll, one app and 100 clicks is not genuine, while the same
snapshot with 1 click is genuine. -/
theorem is_genuine_activity_spec :
    (∀ (snap : StatsSnapshot) (fg : ℕ),
      is_genuine_activity snap fg = true ↔
        (0 < snap.buffer_keys ∨ (1 / 1000 : ℚ) < snap.buffer_distance ∨
         0 < snap.buffer_scroll ∨ 1 < fg ∨ snap.buffer_clicks < 100)) ∧
    is_genuine_activity ⟨0, 100, 0, 0⟩ 1 = false ∧
    is_genuine_activity ⟨0, 1, 0, 0⟩ 1 = true := by
  refine ⟨?_, by norm_num [is_genuine_activity], by norm_num [is_genuine_activity]⟩
  intro snap fg
  unfold is_genuine_activity
  split_ifs with h1 h2 h3 h4
  · exact iff_of_true rfl (Or.inl h1)
  · exact iff_of_true rfl (Or.inr (Or.inl h2))
  · exact iff_of_true rfl (Or.inr (Or.inr (Or.inl h3)))
  · exact iff_of_true rfl (Or.inr (Or.inr (Or.inr (Or.inl h4))))
  · simp only [decide_eq_true_eq]
    tauto

/-! ## Claim theorems: reminder policy -/

/-- C5 counterexample: with the last reminder recorded at wall time `0.0`
(stored, not `None`) and only 100 seconds elapsed since it, `_should_remind`
still returns `True` — Python's `if self._last_reminder_time:` treats the
`0.0` timestamp as falsy and skips the cooldown check — so the claimed
if-and-only-if characterisation fails at this state. -/
theorem should_remind_claim_cex :
    ¬ (should_remind cexCfg cexState 100 false cexSnap 1 = true ↔
        shouldRemindSpec cexCfg cexState 100 false cexSnap 1) := by
  intro hiff
  have hsr : should_remind cexCfg cexState 100 false cexSnap 1 = true := by
    norm_num [should_remind, is_enabled, is_genuine_activity, cexCfg, cexState, cexSnap]
  obtain ⟨-, -, -, -, -, hcool⟩ := hiff.1 hsr
  rcases hcool with hnone | ⟨lrt, hl, hge⟩
  · simp [cexState] at hnone
  · simp only [cexState, Option.some.injEq] at hl
    rw [← hl] at hge
    norm_num at hge

/-- C5 (amended): `_should_remind` returns `True` iff reminders are enabled
with a positive interval, the continuous-usage start is set, the user is not
idle, the activity is genuine, the elapsed time reaches the interval, and
the cooldown clause holds — where, because the code tests the last reminder
time for Python truthiness, "no reminder yet" means the recorded time is
`None` *or the timestamp `0.0`*; otherwise at least 300 seconds must have
passed since the last reminder. -/
theorem should_remind_amended (cfg : BRConfig) (st : BRState) (now : ℚ)
    (idle : Bool) (snap : StatsSnapshot) (fg : ℕ) :
    should_remind cfg st now idle snap fg = true ↔
      (cfg.break_reminder_enabled = true ∧
       0 < cfg.break_reminder_interval_minutes ∧
       (∃ cus, st.continuous_usage_start = some cus ∧
         cfg.break_reminder_interval_minutes * 60 ≤ now - cus) ∧
       idle = false ∧
       is_genuine_activity snap fg = true ∧
       (st.last_reminder_time = none ∨ st.last_reminder_time = some 0 ∨
        ∃ lrt, st.last_reminder_time = some lrt ∧ 300 ≤ now - lrt)) := by
  unfold should_remind is_enabled
  cases hcus : st.continuous_usage_start with
  | none => simp [hcus]
  | some cus =>
    cases hen : cfg.break_reminder_enabled with
    | false => simp [hen]
    | true =>
      by_cases hint : (0:ℚ) < cfg.break_reminder_interval_minutes
      · cases idle with
        | true => simp [hint]
        | false =>
          cases hgen : is_genuine_activity snap fg with
          | false => simp [hint, hgen]
          | true =>
            by_cases helap : cfg.break_reminder_interval_minutes * 60 ≤ now - cus
            · cases hlrt : st.last_reminder_time with
              | none => simp [hint, hgen, helap, hcus, hlrt]
              | some lrt =>
                by_cases hz : lrt = 0
                · subst hz
                  simp [hint, hgen, helap, hcus, hlrt]
                · by_cases hcool : now - lrt < 300
                  · simp [hint, hgen, helap, hcus, hlrt, hz, hcool, not_le.2 hcool]
                  · simp [hint, hgen, helap, hcus, hlrt, hz, hcool, not_lt.1 hcool]
            · simp [hint, hgen, helap, hcus]
      · simp [hint]

/-- C6 counterexample: with a 60-minute interval, continuous usage started
at time 1 and `snooze(10)` called at time 7200, the new continuous-usage
start is `4200`, making the time remaining until the next reminder exactly
600 seconds — not the previous remaining time increased by 10 minutes. -/
theorem snooze_claim_cex :
    (snooze snzCfg snzState 7200 10).continuous_usage_start = some 4200 ∧
    time_until_reminder snzCfg (snooze snzCfg snzState 7200 10) 7200 ≠
      time_until_reminder snzCfg snzState 7200 + 10 * 60 := by
  constructor
  · norm_num [snooze, pyTruthy, snzCfg, snzState]
  · norm_num [snooze, pyTruthy, time_until_reminder, snzCfg, snzState]

/-- C6 (amended): for a state whose continuous-usage start is set (and,
because the code tests it for Python truthiness, nonzero), `snooze(m)`
re-bases the continuous-usage start to `now − (interval − m minutes)`, so
the time remaining until a reminder becomes due equals exactly `m` minutes;
it records `now` as the last reminder time and leaves the break flags and
the accumulated activity snapshot unchanged. -/
theorem snooze_amended (cfg : BRConfig) (st : BRState) (now m cus : ℚ)
    (hcus : st.continuous_usage_start = some cus) (hne : cus ≠ 0) :
    (snooze cfg st now m).continuous_usage_start
        = some (now - (cfg.break_reminder_interval_minutes * 60 - m * 60)) ∧
    time_until_reminder cfg (snooze cfg st now m) now = m * 60 ∧
    (snooze cfg st now m).last_reminder_time = some now ∧
    (snooze cfg st now m).on_break = st.on_break ∧
    (snooze cfg st now m).break_start_time = st.break_start_time ∧
    (snooze cfg st now m).last_activity_snapshot = st.last_activity_snapshot := by
  have htr : pyTruthy st.continuous_usage_start = true := by
    rw [hcus]
    simp [pyTruthy, hne]
  refine ⟨?_, ?_, ?_, ?_, ?_, ?_⟩ <;>
    simp [snooze, htr, time_until_reminder]

theorem snooze_amended_witness :
    snzState.continuous_usage_start = some 1 ∧ (1 : ℚ) ≠ 0 ∧
    ((snooze snzCfg snzState 7200 10).continuous_usage_start
        = some (7200 - (snzCfg.break_reminder_interval_minutes * 60 - 10 * 60)) ∧
     time_until_reminder snzCfg (snooze snzCfg snzState 7200 10) 7200 = 10 * 60 ∧
     (snooze snzCfg snzState 7200 10).last_reminder_time = some 7200 ∧
     (snooze snzCfg snzState 7200 10).on_break = snzState.on_break ∧
     (snooze snzCfg snzState 7200 10).break_start_time = snzState.break_start_time ∧
     (snooze snzCfg snzState 7200 10).last_activity_snapshot
        = snzState.last_activity_snapshot) :=
  ⟨rfl, by norm_num, snooze_amended snzCfg snzState 7200 10 1 rfl (by norm_num)⟩

/-- C7: once the user has been idle (on break, with a recorded positive
break start) for at least the configured break duration,
`_check_break_taken` returns `True` and the monitor tick resets the
continuous-usage timer to the reset time (clearing the break flags); and
for any state that is on break, the next active (non-idle) tick clears
`on_break` and the break start together. -/
theorem break_taken_resets (cfg : BRConfig) (st st2 : BRState) (now b : ℚ)
    (snap : StatsSnapshot) (fg : ℕ)
    (hob : st.on_break = true) (hbst : st.break_start_time = some b)
    (hbpos : 0 < b)
    (hdur : cfg.break_reminder_duration_minutes * 60 ≤ now - b)
    (hob2 : st2.on_break = true) :
    (check_break_taken cfg st true now).1 = true ∧
    (monitor_tick cfg st true now snap fg).1 = reset_timer st now ∧
    (monitor_tick cfg st true now snap fg).1.continuous_usage_start = some now ∧
    (monitor_tick cfg st true now snap fg).1.on_break = false ∧
    (monitor_tick cfg st true now snap fg).1.break_start_time = none ∧
    (check_break_taken cfg st2 false now).2.on_break = false ∧
    (check_break_taken cfg st2 false now).2.break_start_time = none := by
  have hne : b ≠ 0 := ne_of_gt hbpos
  have hk : check_break_taken cfg st true now = (true, st) := by
    simp [check_break_taken, hob, hbst, hne, hdur]
  have hmt : (monitor_tick cfg st true now snap fg).1 = reset_timer st now := by
    simp [monitor_tick, hk]
  exact ⟨by rw [hk], hmt, by rw [hmt]; rfl, by rw [hmt]; rfl, by rw [hmt]; rfl,
    by simp [check_break_taken, hob2], by simp [check_break_taken, hob2]⟩

theorem break_taken_resets_witness :
    cbtState.on_break = true ∧ cbtState.break_start_time = some 1 ∧
    (0 : ℚ) < 1 ∧
    snzCfg.break_reminder_duration_minutes * 60 ≤ 301 - 1 ∧
    ((check_break_taken snzCfg cbtState true 301).1 = true ∧
     (monitor_tick snzCfg cbtState true 301 cexSnap 1).1 = reset_timer cbtState 301 ∧
     (monitor_tick snzCfg cbtState true 301 cexSnap 1).1.continuous_usage_start
        = some 301 ∧
     (monitor_tick snzCfg cbtState true 301 cexSnap 1).1.on_break = false ∧
     (monitor_tick snzCfg cbtState true 301 cexSnap 1).1.break_start_time = none ∧
     (check_break_taken snzCfg cbtState false 301).2.on_break = false ∧
     (check_break_taken snzCfg cbtState false 301).2.break_start_time = none) :=
  ⟨rfl, rfl, by norm_num, by norm_num [snzCfg],
   break_taken_resets snzCfg cbtState cbtState 301 1 cexSnap 1 rfl rfl
     (by norm_num) (by norm_num [snzCfg]) rfl⟩

/-- C8: the `try/except` around one monitor tick catches every exception of
`_check_break_taken` / `reset_timer` / `_should_remind` / `_send_reminder`:
over any schedule of (possibly raising) ticks, the loop processes the whole
schedule, logging exactly the raised errors, an erroring tick leaves the
state as it was, and no error ever propagates out of the loop; the
infallible oracles built from the actual operations realize the normal
tick. -/
theorem monitor_loop_swallows (st : BRState) (sched : List TickOracles) :
    (monitor_run st sched).2 = sched.filterMap tick_error ∧
    (monitor_run st sched).1 = sched.foldl
      (fun s o => match tick_body o with | .ok s2 => s2 | .error _ => s) st ∧
    ∀ (cfg : BRConfig) (st3 : BRState) (idle : Bool) (now : ℚ)
      (snap : StatsSnapshot) (fg : ℕ),
      tick_body (oraclesOf cfg st3 idle now snap fg)
        = .ok (monitor_tick cfg st3 idle now snap fg).1 := by
  refine ⟨?_, ?_, ?_⟩
  · induction sched generalizing st with
    | nil => simp [monitor_run]
    | cons o rest ih =>
      simp only [monitor_run, List.filterMap_cons]
      cases hb : tick_body o with
      | ok s2 => simp [guarded_tick, hb, tick_error, ih]
      | error e => simp [guarded_tick, hb, tick_error, ih]
  · induction sched generalizing st with
    | nil => simp [monitor_run]
    | cons o rest ih =>
      simp only [monitor_run, List.foldl_cons]
      cases hb : tick_body o with
      | ok s2 => simp [guarded_tick, hb, ih]
      | error e => simp [guarded_tick, hb, ih]
  · intro cfg st3 idle now snap fg
    cases hp : check_break_taken cfg st3 idle now with
    | mk tk s1 =>
      cases tk <;> cases hr : should_remind cfg s1 now idle snap fg <;>
        simp [tick_body, oraclesOf, monitor_tick, hp, hr]

/-- C10: the invariant "`_on_break` and `_break_start_time` are set and
cleared together" holds at construction and is preserved by `reset_timer`,
`snooze`, `_send_reminder`, `_check_break_taken` and `get_status`. -/
theorem br_invariant_preserved :
    br_invariant initState ∧
    (∀ (st : BRState) (now : ℚ), br_invariant (reset_timer st now)) ∧
    (∀ (cfg : BRConfig) (st : BRState) (now m : ℚ),
      br_invariant st → br_invariant (snooze cfg st now m)) ∧
    (∀ (st : BRState) (now : ℚ),
      br_invariant st → br_invariant (send_reminder st now)) ∧
    (∀ (cfg : BRConfig) (st : BRState) (idle : Bool) (now : ℚ),
      br_invariant st → br_invariant (check_break_taken cfg st idle now).2) ∧
    (∀ (cfg : BRConfig) (st : BRState) (now : ℚ),
      br_invariant st → br_invariant (get_status cfg st now).2) := by
  refine ⟨by simp [br_invariant, initState], ?_, ?_, ?_, ?_, ?_⟩
  · intro st now
    simp [br_invariant, reset_timer]
  · intro cfg st now m h
    by_cases ht : pyTruthy st.continuous_usage_start <;>
      simpa [br_invariant, snooze, ht] using h
  · intro st now h
    simpa [br_invariant, send_reminder] using h
  · intro cfg st idle now h
    cases idle with
    | false =>
      by_cases hob : st.on_break = true
      · simp [check_break_taken, hob, br_invariant]
      · simp only [Bool.not_eq_true] at hob
        simpa [check_break_taken, hob] using h
    | true =>
      by_cases hob : st.on_break = true
      · cases hbst : st.break_start_time with
        | none => simpa [check_break_taken, hob, hbst] using h
        | some bst =>
          by_cases hz : bst = 0 <;> simpa [check_break_taken, hob, hbst, hz] using h
      · simp only [Bool.not_eq_true] at hob
        simp [check_break_taken, hob, br_invariant]
  · intro cfg st now h
    have h2 : (get_status cfg st now).2 = st := by
      unfold get_status
      split_ifs <;> rfl
    rwa [h2]

theorem br_invariant_preserved_witness :
    br_invariant initState ∧
    br_invariant (snooze cexCfg initState 7 10) ∧
    br_invariant (check_break_taken cexCfg initState true 7).2 :=
  ⟨br_invariant_preserved.1,
   br_invariant_preserved.2.2.1 cexCfg initState 7 10 (by decide),
   br_invariant_preserved.2.2.2.2.1 cexCfg initState true 7 (by decide)⟩

end ActivityTrack
